import Mathlib

/-!
Verification development for the coffee-exports analysis pipeline
(`coffee_exports_analysis.py`).

The program is a linear extract-transform-aggregate pipeline over a
spreadsheet workbook.  We embed it shallowly: a workbook is a list of
sheets, a sheet is a list of rows, a row is an association list from
column names to cell values.  Numeric cells are exact rationals (the
source uses machine floats; every claim checked here is about the
algebraic shape of the computation, which is identical).

Rational arithmetic is routed through kernel-computable wrappers
(`qadd`, `qmul`, `qdiv`) that are proved equal to the field operations
on `ℚ`, so that concrete runs of the pipeline can be evaluated by
`decide`.
-/

namespace Coffee

/-- Kernel-computable addition on `ℚ` (library addition is sealed). -/
def qadd (a b : ℚ) : ℚ := mkRat (a.num * (b.den : ℤ) + b.num * (a.den : ℤ)) (a.den * b.den)

/-- Kernel-computable multiplication on `ℚ`. -/
def qmul (a b : ℚ) : ℚ := mkRat (a.num * b.num) (a.den * b.den)

/-- Kernel-computable division on `ℚ` (division by zero yields zero,
as for `ℚ` itself). -/
def qdiv (a b : ℚ) : ℚ :=
  if b.num < 0 then mkRat (-(a.num * (b.den : ℤ))) (a.den * b.num.natAbs)
  else mkRat (a.num * (b.den : ℤ)) (a.den * b.num.natAbs)

theorem qadd_eq (a b : ℚ) : qadd a b = a + b := by
  have ha : (a.den : ℚ) ≠ 0 := Nat.cast_ne_zero.mpr a.den_pos.ne'
  have hb : (b.den : ℚ) ≠ 0 := Nat.cast_ne_zero.mpr b.den_pos.ne'
  rw [qadd, Rat.mkRat_eq_div]
  push_cast
  conv_rhs => rw [← Rat.num_div_den a, ← Rat.num_div_den b]
  field_simp

theorem qmul_eq (a b : ℚ) : qmul a b = a * b := by
  have ha : (a.den : ℚ) ≠ 0 := Nat.cast_ne_zero.mpr a.den_pos.ne'
  have hb : (b.den : ℚ) ≠ 0 := Nat.cast_ne_zero.mpr b.den_pos.ne'
  rw [qmul, Rat.mkRat_eq_div]
  push_cast
  conv_rhs => rw [← Rat.num_div_den a, ← Rat.num_div_den b]
  field_simp

theorem qdiv_eq (a b : ℚ) : qdiv a b = a / b := by
  rcases eq_or_ne b 0 with rfl | hb0
  · simp [qdiv, Rat.mkRat_eq_div]
  · have ha : (a.den : ℚ) ≠ 0 := Nat.cast_ne_zero.mpr a.den_pos.ne'
    have hbd : (b.den : ℚ) ≠ 0 := Nat.cast_ne_zero.mpr b.den_pos.ne'
    have hbn : b.num ≠ 0 := Rat.num_ne_zero.mpr hb0
    have hbnq : (b.num : ℚ) ≠ 0 := Int.cast_ne_zero.mpr hbn
    rw [qdiv]
    conv_rhs => rw [← Rat.num_div_den a, ← Rat.num_div_den b]
    rw [div_div_div_comm]
    split_ifs with hneg
    · have hnegq : (b.num : ℚ) < 0 := by exact_mod_cast hneg
      rw [Rat.mkRat_eq_div]
      push_cast [Int.cast_natAbs, abs_of_neg hnegq]
      field_simp
      exact Or.inl (mul_comm _ _)
    · have hposq : (0 : ℚ) ≤ (b.num : ℚ) := by exact_mod_cast not_lt.mp hneg
      rw [Rat.mkRat_eq_div]
      push_cast [Int.cast_natAbs, abs_of_nonneg hposq]
      field_simp
      exact Or.inl (mul_comm _ _)

/-- Sum of a list of rationals through the computable addition. -/
def qsum : List ℚ → ℚ
  | [] => 0
  | x :: xs => qadd x (qsum xs)

theorem qsum_eq (l : List ℚ) : qsum l = l.sum := by
  induction l with
  | nil => rfl
  | cons x xs ih => rw [qsum, qadd_eq, ih, List.sum_cons]

/-- Cell values of the tabular model: a missing value (pandas `NaN`),
a number, or a string. -/
inductive Val where
  | na : Val
  | num (q : ℚ) : Val
  | str (s : String) : Val
deriving DecidableEq

def isNa : Val → Bool
  | .na => true
  | _ => false

def isNum : Val → Bool
  | .num _ => true
  | _ => false

/-- Numeric content of a cell; missing values count as `0`, matching
pandas `sum`, which skips `NaN` cells. -/
def numOf : Val → ℚ
  | .num q => q
  | _ => 0

/-- A row is an association list from column names to values; the first
binding of a name wins, so prepending a binding overwrites a column. -/
abbrev Row := List (String × Val)

/-- Reading column `c` of a row; a column with no binding reads as
missing, which models the `NaN` padding `pandas.concat` introduces for
columns absent from a source sheet. -/
def getCell (r : Row) (c : String) : Val := (r.lookup c).getD .na

/-- Writing column `c` of a row (column assignment in pandas). -/
def setCell (r : Row) (c : String) (v : Val) : Row := (c, v) :: r

/-- One worksheet of the workbook. -/
structure Sheet where
  name : String
  cols : List String
  rows : List Row
deriving DecidableEq

/-- A workbook: the sheets of the Excel file, in order. -/
abbrev Workbook := List Sheet

/-- A data frame: column set plus rows. -/
structure Table where
  cols : List String
  rows : List Row
deriving DecidableEq

/-- Lower-casing of a string, character by character. -/
def lowerData (s : String) : List Char := s.data.map Char.toLower

/-- Selection test of the Loader: `sheet.lower().startswith("year")`. -/
def isYearName (s : String) : Bool := "year".data.isPrefixOf (lowerData s)

def isYearSheet (sh : Sheet) : Bool := isYearName sh.name

/-- Whitespace stripping from both ends (Python `str.strip`). -/
def trimData (l : List Char) : List Char :=
  ((l.dropWhile Char.isWhitespace).reverse.dropWhile Char.isWhitespace).reverse

def trimStr (s : String) : String := ⟨trimData s.data⟩

/-- Worker for `replaceStr`: replaces every non-overlapping occurrence
of `pat` left to right, with fuel bounding the recursion. -/
def replGo (pat rep : List Char) : ℕ → List Char → List Char
  | _, [] => []
  | 0, l => l
  | n + 1, c :: cs =>
    if pat.isPrefixOf (c :: cs) then rep ++ replGo pat rep n ((c :: cs).drop pat.length)
    else c :: replGo pat rep n cs

/-- Python `str.replace`: every occurrence of `pat` is replaced, not
just a leading one.  `pat` is nonempty at the single call site. -/
def replaceStr (s pat rep : String) : String := ⟨replGo pat.data rep.data s.data.length s.data⟩

/-- Year label of a sheet: `sheet.replace("Year ", "").strip()`. -/
def yearLabel (name : String) : String := trimStr (replaceStr name "Year " "")

/-- The `df["Year"] = year_label` assignment applied to one row. -/
def tagYear (label : String) (r : Row) : Row := ("Year", Val.str label) :: r

def noYearSheetsMsg : String := "No Year sheets found in the workbook."

/-- The Loader, `read_year_sheets`: select the sheets whose lower-cased
name starts with "year", tag each row with the sheet's year label, and
concatenate everything into one table; raise when nothing matches. -/
def read_year_sheets (wb : Workbook) : Except String Table :=
  let sheets := wb.filter isYearSheet
  if sheets.isEmpty then .error noYearSheetsMsg
  else
    .ok { cols := (sheets.map Sheet.cols).flatten ++ ["Year"]
        , rows := (sheets.map (fun sh => sh.rows.map (tagYear (yearLabel sh.name)))).flatten }

/-- Digit accumulator: `some n` while every character is a digit. -/
def parseDigits (l : List Char) : Option ℕ :=
  l.foldl
    (fun acc c =>
      match acc with
      | none => none
      | some n => if c.isDigit then some (10 * n + (c.toNat - 48)) else none)
    (some 0)

def parseNatStrict (l : List Char) : Option ℕ :=
  if l.isEmpty then none else parseDigits l

/-- Unsigned decimal literal: digits, optionally a dot and more digits. -/
def parseUnsigned (u : List Char) : Option ℚ :=
  let ip := u.takeWhile Char.isDigit
  match u.dropWhile Char.isDigit with
  | [] => (parseNatStrict ip).map (fun n => (n : ℚ))
  | c :: frac =>
    if c = '.' then
      match parseNatStrict ip, parseNatStrict frac with
      | some n, some m => some (qadd (n : ℚ) (qdiv (m : ℚ) ((10 : ℚ) ^ frac.length)))
      | _, _ => none
    else none

/-- Model of `pandas.to_numeric(..., errors="coerce")` on strings: plain
decimal literals parse, everything else coerces to missing. -/
def parseNumeric (s : String) : Option ℚ :=
  match trimData s.data with
  | '-' :: u => (parseUnsigned u).map (fun q => -q)
  | t => parseUnsigned t

/-- Numeric coercion of one cell: numbers stay, parseable strings become
numbers, and everything else becomes missing. -/
def toNumericVal : Val → Val
  | .num q => .num q
  | .str s =>
    match parseNumeric s with
    | some q => .num q
    | none => .na
  | .na => .na

def numColumns : List String := ["Trade volume", "Trade value"]

/-- The Normalizer's `coerce_numeric`: each listed column that exists in
the table is converted cell-wise with `toNumericVal`. -/
def coerce_numeric (t : Table) (cs : List String) : Table :=
  { t with
    rows := t.rows.map (fun r =>
      cs.foldl (fun r' c => if c ∈ t.cols then setCell r' c (toNumericVal (getCell r' c)) else r') r) }

/-- Division by `1000` of one cell (`NaN / 1000` stays `NaN`). -/
def div1000 : Val → Val
  | .num q => .num (qdiv q 1000)
  | _ => .na

/-- The derived-column assignment
`df_all["Trade volume (t)"] = df_all["Trade volume"] / 1000.0`. -/
def addTonsCol (t : Table) : Table :=
  { cols := t.cols ++ ["Trade volume (t)"]
  , rows := t.rows.map (fun r => setCell r "Trade volume (t)" (div1000 (getCell r "Trade volume"))) }

/-- The row filter `df_all.dropna(subset=["Trade volume"])`. -/
def dropnaVol (t : Table) : Table :=
  { t with rows := t.rows.filter (fun r => isNum (getCell r "Trade volume")) }

/-- Measure read of one row for aggregation. -/
def measureOf (m : String) (r : Row) : ℚ := numOf (getCell r m)

/-- Distinct non-missing key values of a column; `groupby` drops rows
whose key is `NaN`. -/
def groupKeys (rows : List Row) (key : String) : List Val :=
  ((rows.map (fun r => getCell r key)).filter (fun v => !isNa v)).dedup

/-- Sum of the measure over the rows of one group. -/
def groupSum (rows : List Row) (key : String) (k : Val) (m : String) : ℚ :=
  qsum ((rows.filter (fun r => getCell r key == k)).map (measureOf m))

/-- `df.groupby(key, as_index=False)[m].sum()`. -/
def groupbySum (rows : List Row) (key m : String) : List (Val × ℚ) :=
  (groupKeys rows key).map (fun k => (k, groupSum rows key k m))

/-- Distinct non-missing key pairs of a two-column grouping. -/
def groupKeys2 (rows : List Row) (k1 k2 : String) : List (Val × Val) :=
  ((rows.filter (fun r => !isNa (getCell r k1) && !isNa (getCell r k2))).map
    (fun r => (getCell r k1, getCell r k2))).dedup

def groupSum2 (rows : List Row) (k1 k2 : String) (p : Val × Val) (m : String) : ℚ :=
  qsum ((rows.filter (fun r => getCell r k1 == p.1 && getCell r k2 == p.2)).map (measureOf m))

/-- `df.groupby([k1, k2], as_index=False)[m].sum()`. -/
def groupbySum2 (rows : List Row) (k1 k2 m : String) : List (Val × Val × ℚ) :=
  (groupKeys2 rows k1 k2).map (fun p => (p.1, p.2, groupSum2 rows k1 k2 p m))

/-- Order key of a string: its characters as code points. -/
def strKey (s : String) : List ℕ := s.data.map Char.toNat

/-- Total comparison of cell values: missing before numbers before
strings, numbers by value, strings lexicographically. -/
def valLeB : Val → Val → Bool
  | .na, _ => true
  | .num _, .na => false
  | .num a, .num b => decide (a ≤ b)
  | .num _, .str _ => true
  | .str _, .na => false
  | .str _, .num _ => false
  | .str a, .str b => decide (strKey a ≤ strKey b)

def valLtB (a b : Val) : Bool := !valLeB b a

/-- Descending comparison on (key, summed measure) pairs:
`sort_values("Trade volume", ascending=False)`. -/
def geVolB (a b : Val × ℚ) : Bool := decide (b.2 ≤ a.2)

/-- Ascending comparison on the key: `sort_values("Year")`. -/
def leYearB (a b : Val × ℚ) : Bool := valLeB a.1 b.1

/-- Lexicographic comparison, first component ascending then measure
descending: `sort_values([k, "Trade volume"], ascending=[True, False])`. -/
def leLexB (a b : Val × Val × ℚ) : Bool :=
  valLtB a.1 b.1 || (valLeB a.1 b.1 && decide (b.2.2 ≤ a.2.2))

/-- Stable insertion of `x` into a list sorted by `le`: `x` goes after
every element it compares `le`-below-or-equal to. -/
def insertLe (le : α → α → Bool) (x : α) : List α → List α
  | [] => [x]
  | y :: ys => if le x y then x :: y :: ys else y :: insertLe le x ys

/-- Stable sort by a boolean comparison. -/
def sortByB (le : α → α → Bool) : List α → List α
  | [] => []
  | x :: xs => insertLe le x (sortByB le xs)

/-- Report A: volumes per year, sorted by the `Year` label ascending. -/
def perYearReport (rows : List Row) : List (Val × ℚ) :=
  sortByB leYearB (groupbySum rows "Year" "Trade volume")

/-- Shared shape of reports B, C, F, G: group by one key, sum the
volume, sort descending by the summed volume. -/
def reportVol (rows : List Row) (key : String) : List (Val × ℚ) :=
  sortByB geVolB (groupbySum rows key "Trade volume")

/-- Reports carrying a percentage column (B, C, F): the share of each
group in the grand total of the summed volumes. -/
def reportPct (rows : List Row) (key : String) : List (Val × ℚ × ℚ) :=
  let g := reportVol rows key
  let total := qsum (g.map (fun p => p.2))
  g.map (fun p => (p.1, p.2, qmul (qdiv p.2 total) 100))

/-- Per-year grouping sorted by year ascending then volume descending. -/
def sortedYearKey (rows : List Row) (k2 : String) : List (Val × Val × ℚ) :=
  sortByB leLexB (groupbySum2 rows "Year" k2 "Trade volume")

/-- Worker for `headPerGroup`: `seen` records the partition keys of
rows already emitted or skipped. -/
def headPerGroupAux (N : ℕ) (key : α → Val) : List Val → List α → List α
  | _, [] => []
  | seen, x :: xs =>
    if seen.count (key x) < N then x :: headPerGroupAux N key (key x :: seen) xs
    else headPerGroupAux N key (key x :: seen) xs

/-- `df.groupby(k).head(N)`: the first `N` rows of each partition, in
the order the rows currently stand. -/
def headPerGroup (N : ℕ) (key : α → Val) (l : List α) : List α :=
  headPerGroupAux N key [] l

/-- Reports D, E, F2: top-`N` second keys per year. -/
def topNPerYear (rows : List Row) (k2 : String) (N : ℕ) : List (Val × Val × ℚ) :=
  headPerGroup N (fun x => x.1) (sortedYearKey rows k2)

/-- Report G2: exporters within the top-5 municipalities. -/
def muniExpReport (rows : List Row) : List (Val × Val × ℚ) :=
  let top5 := (((reportVol rows "Municipality of export").take 10).take 5).map (fun p => p.1)
  (sortByB leLexB (groupbySum2 rows "Municipality of export" "Exporter" "Trade volume")).filter
    (fun p => top5.contains p.1)

/-- The aggregate tables produced by one run (charts are not modelled;
each field is one saved CSV, `none` when its section was skipped). -/
structure Outputs where
  combined : Table
  per_year : List (Val × ℚ)
  by_country : Option (List (Val × ℚ × ℚ))
  by_exporter : Option (List (Val × ℚ × ℚ))
  top3_imp : Option (List (Val × Val × ℚ))
  top3_countries : Option (List (Val × Val × ℚ))
  beans : Option (List (Val × ℚ × ℚ))
  top1_bean_year : Option (List (Val × Val × ℚ))
  muni : Option (List (Val × ℚ))
  muni_exp : Option (List (Val × Val × ℚ))
deriving DecidableEq

def keyErrorMsg : String := "KeyError: Trade volume"

/-- Stages 2 through 4 of `main`, after the Loader and after the
`Trade volume` column has been checked to exist: normalization, the
seven report sections with their column-presence gates. -/
def buildOutputs (t1 : Table) : Outputs :=
  let df := dropnaVol (addTonsCol t1)
  { combined := df
  , per_year := perYearReport df.rows
  , by_country :=
      if "Country of destination" ∈ df.cols then some (reportPct df.rows "Country of destination")
      else none
  , by_exporter :=
      if "Exporter" ∈ df.cols then some (reportPct df.rows "Exporter") else none
  , top3_imp :=
      if "Importer" ∈ df.cols then some (topNPerYear df.rows "Importer" 3) else none
  , top3_countries :=
      if "Country of destination" ∈ df.cols then
        some (topNPerYear df.rows "Country of destination" 3)
      else none
  , beans := if "Coffee bean" ∈ df.cols then some (reportPct df.rows "Coffee bean") else none
  , top1_bean_year :=
      if "Coffee bean" ∈ df.cols then some (topNPerYear df.rows "Coffee bean" 1) else none
  , muni :=
      if "Municipality of export" ∈ df.cols then some (reportVol df.rows "Municipality of export")
      else none
  , muni_exp :=
      if "Municipality of export" ∈ df.cols ∧ "Exporter" ∈ df.cols then
        some (muniExpReport df.rows)
      else none }

/-- The whole run, `main(excel_path)`: Loader, then numeric coercion;
the unconditional accesses `df_all["Trade volume"]` raise a `KeyError`
when that column does not exist, every other report section is gated on
its column's presence. -/
def main (wb : Workbook) : Except String Outputs :=
  match read_year_sheets wb with
  | .error e => .error e
  | .ok t =>
    let t1 := coerce_numeric t numColumns
    if "Trade volume" ∈ t1.cols then .ok (buildOutputs t1) else .error keyErrorMsg

def emptyOutputs : Outputs :=
  { combined := ⟨[], []⟩, per_year := [], by_country := none, by_exporter := none
  , top3_imp := none, top3_countries := none, beans := none, top1_bean_year := none
  , muni := none, muni_exp := none }

def outputsOf (wb : Workbook) : Outputs :=
  match main wb with
  | .ok o => o
  | .error _ => emptyOutputs

def runOk (wb : Workbook) : Bool :=
  match main wb with
  | .ok _ => true
  | .error _ => false

def loaderOk (wb : Workbook) : Bool :=
  match read_year_sheets wb with
  | .ok _ => true
  | .error _ => false

def tableOf (wb : Workbook) : Table :=
  match read_year_sheets wb with
  | .ok t => t
  | .error _ => ⟨[], []⟩

/-- Refinement reference for claim C4, written from the spec's words:
the Year label is "the sheet name with the `Year ` prefix stripped
(and surrounding whitespace trimmed)". -/
def specYearLabel (name : String) : String :=
  trimStr (if ("Year ".data).isPrefixOf name.data then ⟨name.data.drop 5⟩ else name)

/-- Demonstration workbook exercising every optional column: two year
sheets, one row with an unparseable volume. -/
def wbDemo : Workbook :=
  [ { name := "Year 2020"
    , cols := ["Trade volume", "Trade value", "Country of destination", "Exporter",
               "Importer", "Coffee bean", "Municipality of export"]
    , rows :=
        [ [("Trade volume", .num 100), ("Trade value", .num 7),
           ("Country of destination", .str "USA"), ("Exporter", .str "E1"),
           ("Importer", .str "I1"), ("Coffee bean", .str "Arabica"),
           ("Municipality of export", .str "Medellin")]
        , [("Trade volume", .num 200), ("Country of destination", .str "Germany"),
           ("Exporter", .str "E2"), ("Importer", .str "I2"),
           ("Coffee bean", .str "Robusta"), ("Municipality of export", .str "Bogota")]
        , [("Trade volume", .str "N/A"), ("Country of destination", .str "France"),
           ("Exporter", .str "E3"), ("Importer", .str "I3"),
           ("Coffee bean", .str "Arabica"), ("Municipality of export", .str "Cali")] ] }
  , { name := "Year 2021"
    , cols := ["Trade volume", "Country of destination", "Exporter", "Importer",
               "Coffee bean", "Municipality of export"]
    , rows :=
        [ [("Trade volume", .num 300), ("Country of destination", .str "USA"),
           ("Exporter", .str "E1"), ("Importer", .str "I1"),
           ("Coffee bean", .str "Arabica"), ("Municipality of export", .str "Medellin")] ] } ]

/-- The scenario workbook of the spec: sheets "Year 2020" with volumes
100 and 200 and "Year 2021" with volume 300. -/
def wb9 : Workbook :=
  [ ⟨"Year 2020", ["Trade volume"], [[("Trade volume", .num 100)], [("Trade volume", .num 200)]]⟩
  , ⟨"Year 2021", ["Trade volume"], [[("Trade volume", .num 300)]]⟩ ]

/-- Workbook whose per-year volumes increase with the year label. -/
def wbC2 : Workbook :=
  [ ⟨"Year 2020", ["Trade volume"], [[("Trade volume", .num 10)]]⟩
  , ⟨"Year 2021", ["Trade volume"], [[("Trade volume", .num 20)]]⟩ ]

/-- Workbook with a year sheet but no `Trade volume` column at all. -/
def wbNoVol : Workbook :=
  [ ⟨"Year 2020", ["Exporter"], [[("Exporter", .str "E1")]]⟩ ]

/-- Workbook with no sheet whose name starts with "year". -/
def wbNoYear : Workbook :=
  [ ⟨"Data", ["Trade volume"], [[("Trade volume", .num 5)]]⟩ ]

/-- Workbook whose single year sheet repeats `Year ` inside its name. -/
def wb4 : Workbook :=
  [ ⟨"Year Year 2020", ["Trade volume"], [[("Trade volume", .num 1)]]⟩ ]

/-- Workbook where the destination column exists but every destination
value is missing: the destination report is an empty table. -/
def wbC6 : Workbook :=
  [ ⟨"Year 2020", ["Trade volume", "Country of destination"], [[("Trade volume", .num 100)]]⟩ ]

/-- Workbook with one row lacking a destination value, so that the
destination report's grand total differs from the exporter report's
and from the combined table's total volume. -/
def wb10 : Workbook :=
  [ ⟨"Year 2020", ["Trade volume", "Country of destination", "Exporter"],
     [ [("Trade volume", .num 100), ("Country of destination", .str "USA"), ("Exporter", .str "E1")]
     , [("Trade volume", .num 50), ("Exporter", .str "E1")] ]⟩ ]

/-! ### Sorting lemmas -/

theorem insertLe_perm (le : α → α → Bool) (x : α) (l : List α) :
    List.Perm (insertLe le x l) (x :: l) := by
  induction l with
  | nil => exact List.Perm.refl _
  | cons y ys ih =>
    rw [insertLe]
    by_cases h : le x y = true
    · rw [if_pos h]
    · rw [if_neg h]
      exact (List.Perm.cons y ih).trans (List.Perm.swap x y ys)

theorem sortByB_perm (le : α → α → Bool) (l : List α) : List.Perm (sortByB le l) l := by
  induction l with
  | nil => exact List.Perm.refl _
  | cons x xs ih => exact (insertLe_perm le x (sortByB le xs)).trans (List.Perm.cons x ih)

theorem mem_insertLe {le : α → α → Bool} {x a : α} {l : List α} :
    a ∈ insertLe le x l ↔ a = x ∨ a ∈ l := by
  rw [(insertLe_perm le x l).mem_iff, List.mem_cons]

theorem pairwise_insertLe (le : α → α → Bool)
    (htot : ∀ a b, le a b = true ∨ le b a = true)
    (htr : ∀ a b c, le a b = true → le b c = true → le a c = true)
    (x : α) (l : List α) (h : l.Pairwise (fun a b => le a b = true)) :
    (insertLe le x l).Pairwise (fun a b => le a b = true) := by
  induction l with
  | nil => simp [insertLe]
  | cons y ys ih =>
    rw [List.pairwise_cons] at h
    obtain ⟨hy, hys⟩ := h
    rw [insertLe]
    by_cases hxy : le x y = true
    · rw [if_pos hxy]
      refine List.Pairwise.cons ?_ (List.Pairwise.cons hy hys)
      intro z hz
      rcases List.mem_cons.1 hz with rfl | hz2
      · exact hxy
      · exact htr x y z hxy (hy z hz2)
    · rw [if_neg hxy]
      refine List.Pairwise.cons ?_ (ih hys)
      intro z hz
      rcases mem_insertLe.1 hz with rfl | hz2
      · exact (htot z y).resolve_left hxy
      · exact hy z hz2

theorem sortByB_pairwise (le : α → α → Bool)
    (htot : ∀ a b, le a b = true ∨ le b a = true)
    (htr : ∀ a b c, le a b = true → le b c = true → le a c = true)
    (l : List α) : (sortByB le l).Pairwise (fun a b => le a b = true) := by
  induction l with
  | nil => simp [sortByB]
  | cons x xs ih => exact pairwise_insertLe le htot htr x (sortByB le xs) ih

/-! ### Comparator properties -/

theorem valLeB_refl (a : Val) : valLeB a a = true := by
  cases a <;> simp [valLeB]

theorem valLeB_total (a b : Val) : valLeB a b = true ∨ valLeB b a = true := by
  cases a <;> cases b <;> simp [valLeB] <;> exact le_total _ _

theorem valLeB_trans {a b c : Val} (h1 : valLeB a b = true) (h2 : valLeB b c = true) :
    valLeB a c = true := by
  cases a <;> cases b <;> cases c <;> simp_all [valLeB] <;> exact le_trans h1 h2

theorem valLtB_irrefl (a : Val) : valLtB a a = false := by
  rw [valLtB, valLeB_refl a]
  rfl

theorem leYearB_total (a b : Val × ℚ) : leYearB a b = true ∨ leYearB b a = true :=
  valLeB_total a.1 b.1

theorem leYearB_trans (a b c : Val × ℚ) (h1 : leYearB a b = true) (h2 : leYearB b c = true) :
    leYearB a c = true :=
  valLeB_trans h1 h2

theorem geVolB_total (a b : Val × ℚ) : geVolB a b = true ∨ geVolB b a = true := by
  simp [geVolB]
  exact le_total b.2 a.2

theorem geVolB_trans (a b c : Val × ℚ) (h1 : geVolB a b = true) (h2 : geVolB b c = true) :
    geVolB a c = true := by
  simp [geVolB] at h1 h2 ⊢
  exact le_trans h2 h1

theorem leLexB_iff (a b : Val × Val × ℚ) :
    leLexB a b = true ↔
      (valLeB a.1 b.1 = true ∧ (valLeB b.1 a.1 = true → b.2.2 ≤ a.2.2)) := by
  rw [leLexB, valLtB]
  by_cases h1 : valLeB b.1 a.1 = true
  · by_cases h2 : valLeB a.1 b.1 = true
    · simp [h1, h2]
    · simp [h1, h2]
  · have h2 : valLeB a.1 b.1 = true := (valLeB_total a.1 b.1).resolve_right h1
    simp [h1, h2]

theorem leLexB_total (a b : Val × Val × ℚ) : leLexB a b = true ∨ leLexB b a = true := by
  rw [leLexB_iff, leLexB_iff]
  by_cases h1 : valLeB a.1 b.1 = true
  · by_cases h2 : valLeB b.1 a.1 = true
    · rcases le_total b.2.2 a.2.2 with h | h
      · exact Or.inl ⟨h1, fun _ => h⟩
      · exact Or.inr ⟨h2, fun _ => h⟩
    · exact Or.inl ⟨h1, fun hc => absurd hc h2⟩
  · have h2 : valLeB b.1 a.1 = true := (valLeB_total a.1 b.1).resolve_left h1
    exact Or.inr ⟨h2, fun hc => absurd hc h1⟩

theorem leLexB_trans (a b c : Val × Val × ℚ)
    (h1 : leLexB a b = true) (h2 : leLexB b c = true) : leLexB a c = true := by
  rw [leLexB_iff] at h1 h2 ⊢
  obtain ⟨hab, i1⟩ := h1
  obtain ⟨hbc, i2⟩ := h2
  refine ⟨valLeB_trans hab hbc, fun hca => ?_⟩
  have hcb : valLeB c.1 b.1 = true := valLeB_trans hca hab
  have hba : valLeB b.1 a.1 = true := valLeB_trans hbc hca
  exact le_trans (i2 hcb) (i1 hba)

theorem leLexB_same_fst {a b : Val × Val × ℚ} (h : leLexB a b = true) (hy : a.1 = b.1) :
    b.2.2 ≤ a.2.2 := by
  rw [leLexB_iff] at h
  exact h.2 (hy ▸ valLeB_refl a.1)

/-! ### Top-N-per-group lemmas -/

theorem headPerGroupAux_sublist (N : ℕ) (key : α → Val) (seen : List Val) (l : List α) :
    List.Sublist (headPerGroupAux N key seen l) l := by
  induction l generalizing seen with
  | nil => simp [headPerGroupAux]
  | cons x xs ih =>
    rw [headPerGroupAux]
    by_cases h : seen.count (key x) < N
    · rw [if_pos h]
      exact (ih (key x :: seen)).cons₂ x
    · rw [if_neg h]
      exact (ih (key x :: seen)).cons x

theorem headPerGroup_sublist (N : ℕ) (key : α → Val) (l : List α) :
    List.Sublist (headPerGroup N key l) l :=
  headPerGroupAux_sublist N key [] l

theorem headPerGroupAux_countP (N : ℕ) (key : α → Val) (y : Val) (l : List α) :
    ∀ seen : List Val,
      (headPerGroupAux N key seen l).countP (fun x => key x == y) ≤ N - seen.count y := by
  induction l with
  | nil => intro seen; simp [headPerGroupAux]
  | cons x xs ih =>
    intro seen
    rw [headPerGroupAux]
    have hrec := ih (key x :: seen)
    by_cases hxy : key x = y
    · have hcount : (key x :: seen).count y = seen.count y + 1 := by
        simp [List.count_cons, hxy]
      rw [hcount] at hrec
      have hxyc : seen.count (key x) = seen.count y := by rw [hxy]
      by_cases h : seen.count (key x) < N
      · rw [if_pos h, List.countP_cons]
        have hb : (key x == y) = true := by simp [hxy]
        rw [hb, if_pos rfl]
        omega
      · rw [if_neg h]
        omega
    · have hyx : y ≠ key x := fun h2 => hxy h2.symm
      have hcount : (key x :: seen).count y = seen.count y := by
        simp [List.count_cons, hyx]
      rw [hcount] at hrec
      have hb : (key x == y) = false := beq_eq_false_iff_ne.mpr hxy
      by_cases h : seen.count (key x) < N
      · rw [if_pos h, List.countP_cons, hb, if_neg Bool.false_ne_true]
        omega
      · rw [if_neg h]
        omega

theorem headPerGroup_countP (N : ℕ) (key : α → Val) (y : Val) (l : List α) :
    (headPerGroup N key l).countP (fun x => key x == y) ≤ N := by
  have := headPerGroupAux_countP N key y l []
  simpa [headPerGroup] using this

/-! ### Group-sum lemmas -/

theorem isNa_eq_false_iff {v : Val} : isNa v = false ↔ v ≠ Val.na := by
  cases v <;> simp [isNa]

theorem sum_ite_not_mem {K : List Val} {k0 : Val} (h : k0 ∉ K) (c : ℚ) :
    (K.map (fun k => if k0 = k then c else 0)).sum = 0 := by
  induction K with
  | nil => simp
  | cons k K ih =>
    have hne : k0 ≠ k := fun he => h (he ▸ List.mem_cons_self k K)
    have hK : k0 ∉ K := fun hm => h (List.mem_cons_of_mem k hm)
    simp [hne, ih hK]

theorem sum_ite_mem {K : List Val} (hnd : K.Nodup) {k0 : Val} (h : k0 ∈ K) (c : ℚ) :
    (K.map (fun k => if k0 = k then c else 0)).sum = c := by
  induction K with
  | nil => simp at h
  | cons k K ih =>
    rw [List.nodup_cons] at hnd
    rcases List.mem_cons.1 h with rfl | hm
    · have : k0 ∉ K := hnd.1
      simp [sum_ite_not_mem this c]
    · have hne : k0 ≠ k := fun he => hnd.1 (he ▸ hm)
      simp only [List.map_cons, List.sum_cons, if_neg hne]
      rw [ih hnd.2 hm]
      simp

theorem sum_map_add (f g : α → ℚ) (l : List α) :
    (l.map (fun x => f x + g x)).sum = (l.map f).sum + (l.map g).sum := by
  induction l with
  | nil => simp
  | cons x xs ih =>
    simp only [List.map_cons, List.sum_cons, ih]
    ring

theorem ite_add_split (c : Prop) [Decidable c] (x s : ℚ) :
    (if c then x + s else s) = (if c then x else 0) + s := by
  split_ifs <;> simp

theorem groupsum_covers (key m : String) (K : List Val) (rows : List Row)
    (hnd : K.Nodup) (hna : Val.na ∉ K)
    (hcov : ∀ r ∈ rows, getCell r key ≠ Val.na → getCell r key ∈ K) :
    (K.map (fun k => ((rows.filter (fun r => getCell r key == k)).map (measureOf m)).sum)).sum
      = ((rows.filter (fun r => !isNa (getCell r key))).map (measureOf m)).sum := by
  induction rows with
  | nil => simp
  | cons r rest ih =>
    have hcov' : ∀ r' ∈ rest, getCell r' key ≠ Val.na → getCell r' key ∈ K :=
      fun r' hr' => hcov r' (List.mem_cons_of_mem r hr')
    have hstep : ∀ k : Val,
        ((List.filter (fun r' => getCell r' key == k) (r :: rest)).map (measureOf m)).sum
          = (if getCell r key = k then measureOf m r else 0)
            + ((List.filter (fun r' => getCell r' key == k) rest).map (measureOf m)).sum := by
      intro k
      rw [List.filter_cons]
      by_cases hk : getCell r key = k
      · rw [if_pos (by simp [hk]), if_pos hk, List.map_cons, List.sum_cons]
      · rw [if_neg (by simp [hk]), if_neg hk, zero_add]
    have hmapeq :
        (K.map (fun k =>
            ((List.filter (fun r' => getCell r' key == k) (r :: rest)).map (measureOf m)).sum))
          = K.map (fun k =>
              (if getCell r key = k then measureOf m r else 0)
                + ((List.filter (fun r' => getCell r' key == k) rest).map (measureOf m)).sum) :=
      List.map_congr_left (fun k _ => hstep k)
    rw [hmapeq, sum_map_add, ih hcov']
    by_cases hr : getCell r key = Val.na
    · have hnotin : getCell r key ∉ K := hr ▸ hna
      rw [sum_ite_not_mem hnotin]
      have : (!isNa (getCell r key)) = false := by
        rw [hr]
        rfl
      rw [List.filter_cons, if_neg (by simp [this]), zero_add]
    · have hin : getCell r key ∈ K := hcov r (List.mem_cons_self r rest) hr
      rw [sum_ite_mem hnd hin]
      have : (!isNa (getCell r key)) = true := by
        simp [isNa_eq_false_iff.mpr hr]
      rw [List.filter_cons, if_pos (by simp [this]), List.map_cons, List.sum_cons]

theorem na_not_mem_groupKeys (rows : List Row) (key : String) :
    Val.na ∉ groupKeys rows key := by
  intro h
  rw [groupKeys, List.mem_dedup, List.mem_filter] at h
  simp [isNa] at h

theorem mem_groupKeys_of_row {rows : List Row} {key : String} {r : Row}
    (hr : r ∈ rows) (hna : getCell r key ≠ Val.na) : getCell r key ∈ groupKeys rows key := by
  rw [groupKeys, List.mem_dedup, List.mem_filter]
  refine ⟨List.mem_map.2 ⟨r, hr, rfl⟩, ?_⟩
  simp [isNa_eq_false_iff.mpr hna]

theorem groupKeys_nodup (rows : List Row) (key : String) : (groupKeys rows key).Nodup :=
  List.nodup_dedup _

/-- Grand total over the groups of a one-key grouping: exactly the sum
of the measure over the rows whose key value is present. -/
theorem groupbySum_total (rows : List Row) (key m : String) :
    ((groupbySum rows key m).map (fun p => p.2)).sum
      = ((rows.filter (fun r => !isNa (getCell r key))).map (measureOf m)).sum := by
  rw [groupbySum, List.map_map]
  have hcomp :
      ((fun p : Val × ℚ => p.2) ∘ fun k => (k, groupSum rows key k m))
        = fun k => groupSum rows key k m := rfl
  rw [hcomp]
  have heq : (groupKeys rows key).map (fun k => groupSum rows key k m)
      = (groupKeys rows key).map (fun k =>
          ((rows.filter (fun r => getCell r key == k)).map (measureOf m)).sum) :=
    List.map_congr_left (fun k _ => by rw [groupSum, qsum_eq])
  rw [heq]
  exact groupsum_covers key m (groupKeys rows key) rows (groupKeys_nodup rows key)
    (na_not_mem_groupKeys rows key) (fun r hr => mem_groupKeys_of_row hr)

/-! ### Cell access lemmas -/

theorem getCell_setCell_same (r : Row) (c : String) (v : Val) :
    getCell (setCell r c v) c = v := by
  simp [getCell, setCell, List.lookup]

theorem getCell_setCell_diff (r : Row) (c c' : String) (v : Val) (h : c' ≠ c) :
    getCell (setCell r c v) c' = getCell r c' := by
  simp [getCell, setCell, List.lookup, beq_eq_false_iff_ne.mpr h]

theorem getCell_tagYear (label : String) (r : Row) :
    getCell (tagYear label r) "Year" = Val.str label := by
  simp [getCell, tagYear, List.lookup]

theorem getCell_coerceFold (cols cs : List String) (c' : String) :
    ∀ r : Row, c' ∉ cs →
      getCell
        (cs.foldl (fun r' c => if c ∈ cols then setCell r' c (toNumericVal (getCell r' c)) else r') r)
        c' = getCell r c' := by
  induction cs with
  | nil =>
    intro r _
    rfl
  | cons c cs ih =>
    intro r h
    have hne : c' ≠ c := fun he => h (he ▸ List.mem_cons_self c cs)
    have hcs : c' ∉ cs := fun hm => h (List.mem_cons_of_mem c hm)
    rw [List.foldl_cons]
    by_cases hc : c ∈ cols
    · rw [if_pos hc, ih _ hcs, getCell_setCell_diff _ _ _ _ hne]
    · rw [if_neg hc, ih _ hcs]

/-! ### Loader and pipeline inversion -/

theorem coerce_cols (t : Table) (cs : List String) : (coerce_numeric t cs).cols = t.cols := rfl

theorem read_year_sheets_of_empty {wb : Workbook} (h : (wb.filter isYearSheet).isEmpty = true) :
    read_year_sheets wb = .error noYearSheetsMsg := by
  rw [read_year_sheets]
  simp [h]

theorem read_year_sheets_of_nonempty {wb : Workbook}
    (h : (wb.filter isYearSheet).isEmpty = false) :
    read_year_sheets wb =
      .ok ⟨((wb.filter isYearSheet).map Sheet.cols).flatten ++ ["Year"],
           ((wb.filter isYearSheet).map (fun sh => sh.rows.map (tagYear (yearLabel sh.name)))).flatten⟩ := by
  rw [read_year_sheets]
  simp [h]

theorem read_year_sheets_ok_inv {wb : Workbook} {t : Table}
    (h : read_year_sheets wb = .ok t) :
    (wb.filter isYearSheet).isEmpty = false ∧
      t = ⟨((wb.filter isYearSheet).map Sheet.cols).flatten ++ ["Year"],
           ((wb.filter isYearSheet).map (fun sh => sh.rows.map (tagYear (yearLabel sh.name)))).flatten⟩ := by
  by_cases he : (wb.filter isYearSheet).isEmpty = true
  · rw [read_year_sheets_of_empty he] at h
    exact absurd h (by simp)
  · have hf : (wb.filter isYearSheet).isEmpty = false := by
      simpa using he
    rw [read_year_sheets_of_nonempty hf] at h
    exact ⟨hf, (Except.ok.inj h).symm⟩

theorem main_ok_inv {wb : Workbook} {o : Outputs} (h : main wb = .ok o) :
    ∃ t, read_year_sheets wb = .ok t ∧ "Trade volume" ∈ t.cols ∧
      o = buildOutputs (coerce_numeric t numColumns) := by
  rw [main] at h
  cases hrd : read_year_sheets wb with
  | error e =>
    rw [hrd] at h
    exact absurd h (by simp)
  | ok t =>
    rw [hrd] at h
    simp only at h
    by_cases hv : "Trade volume" ∈ (coerce_numeric t numColumns).cols
    · rw [if_pos hv] at h
      refine ⟨t, rfl, ?_, (Except.ok.inj h).symm⟩
      rw [coerce_cols] at hv
      exact hv
    · rw [if_neg hv] at h
      exact absurd h (by simp)

theorem main_ok_of {wb : Workbook} {t : Table} (h : read_year_sheets wb = .ok t)
    (hv : "Trade volume" ∈ t.cols) :
    main wb = .ok (buildOutputs (coerce_numeric t numColumns)) := by
  rw [main, h]
  simp only
  rw [if_pos (by rw [coerce_cols]; exact hv)]

theorem main_err_of_no_vol {wb : Workbook} {t : Table} (h : read_year_sheets wb = .ok t)
    (hv : "Trade volume" ∉ t.cols) :
    main wb = .error keyErrorMsg := by
  rw [main, h]
  simp only
  rw [if_neg (by rw [coerce_cols]; exact hv)]

/-! ### Report-level lemmas -/

theorem reportVol_perm (rows : List Row) (key : String) :
    List.Perm (reportVol rows key) (groupbySum rows key "Trade volume") :=
  sortByB_perm _ _

theorem reportVol_total (rows : List Row) (key : String) :
    ((reportVol rows key).map (fun p => p.2)).sum
      = ((rows.filter (fun r => !isNa (getCell r key))).map (measureOf "Trade volume")).sum := by
  rw [((reportVol_perm rows key).map (fun p : Val × ℚ => p.2)).sum_eq, groupbySum_total]

theorem sum_map_mul_right (f : α → ℚ) (c : ℚ) (l : List α) :
    (l.map (fun x => f x * c)).sum = (l.map f).sum * c := by
  induction l with
  | nil => simp
  | cons x xs ih =>
    simp only [List.map_cons, List.sum_cons, ih]
    ring

theorem reportPct_vol_proj (rows : List Row) (key : String) :
    (reportPct rows key).map (fun p => p.2.1) = (reportVol rows key).map (fun p => p.2) := by
  rw [reportPct]
  simp only [List.map_map]
  rfl

theorem reportPct_entries (rows : List Row) (key : String) :
    ∀ p ∈ reportPct rows key,
      p.2.2 = p.2.1 / ((reportVol rows key).map (fun x => x.2)).sum * 100 := by
  intro p hp
  rw [reportPct] at hp
  simp only [List.mem_map] at hp
  obtain ⟨q, _, rfl⟩ := hp
  simp only [qmul_eq, qdiv_eq, qsum_eq]

theorem reportPct_sum_100 (rows : List Row) (key : String)
    (hT : ((reportVol rows key).map (fun x => x.2)).sum ≠ 0) :
    ((reportPct rows key).map (fun p => p.2.2)).sum = 100 := by
  rw [reportPct]
  simp only [List.map_map]
  have hcomp :
      ((fun p : Val × ℚ × ℚ => p.2.2) ∘ fun p : Val × ℚ =>
          (p.1, p.2, qmul (qdiv p.2 (qsum ((reportVol rows key).map (fun x => x.2)))) 100))
        = fun p : Val × ℚ => qmul (qdiv p.2 (qsum ((reportVol rows key).map (fun x => x.2)))) 100 :=
    rfl
  rw [hcomp]
  have heq : (reportVol rows key).map
        (fun p : Val × ℚ => qmul (qdiv p.2 (qsum ((reportVol rows key).map (fun x => x.2)))) 100)
      = (reportVol rows key).map
        (fun p : Val × ℚ => p.2 * (100 / ((reportVol rows key).map (fun x => x.2)).sum)) := by
    refine List.map_congr_left (fun p _ => ?_)
    rw [qmul_eq, qdiv_eq, qsum_eq]
    ring
  rw [heq, sum_map_mul_right, mul_comm]
  exact div_mul_cancel₀ 100 hT

/-! ### Claim C5 -/

/-- Claim C5: if the workbook contains zero sheets whose name starts
(case-insensitively) with "year", the Loader raises a data error and the
run aborts (`main` returns `.error`, so no `Outputs` exist and no CSV is
written); with at least one matching sheet the Loader succeeds. -/
theorem c5_loader_gate (wb : Workbook) :
    ((wb.filter isYearSheet).isEmpty = true → main wb = .error noYearSheetsMsg) ∧
    ((wb.filter isYearSheet).isEmpty = false → ∃ t, read_year_sheets wb = .ok t) := by
  constructor
  · intro h
    rw [main, read_year_sheets_of_empty h]
  · intro h
    exact ⟨_, read_year_sheets_of_nonempty h⟩

theorem c5_loader_gate_witness :
    main wbNoYear = .error noYearSheetsMsg ∧ ∃ t, read_year_sheets wb9 = .ok t :=
  ⟨(c5_loader_gate wbNoYear).1 (by decide), (c5_loader_gate wb9).2 (by decide)⟩

/-! ### Claim C8 -/

/-- Claim C8: when the Loader succeeds, the unified table (before the
missing-volume filter) has exactly as many rows as all matching sheets
together. -/
theorem c8_row_conservation (wb : Workbook) (t : Table) (h : read_year_sheets wb = .ok t) :
    t.rows.length = ((wb.filter isYearSheet).map (fun sh => sh.rows.length)).sum := by
  obtain ⟨-, rfl⟩ := read_year_sheets_ok_inv h
  simp only [List.length_flatten, List.map_map]
  congr 1
  apply List.map_congr_left
  intro sh _
  simp

theorem c8_row_conservation_witness :
    (tableOf wbDemo).rows.length
      = ((wbDemo.filter isYearSheet).map (fun sh => sh.rows.length)).sum :=
  c8_row_conservation wbDemo (tableOf wbDemo) rfl

/-! ### Claim C9 -/

/-- Claim C9: on the workbook with sheets "Year 2020" (volumes 100 and
200) and "Year 2021" (volume 300), the run succeeds, the unified table
has exactly 3 rows, and the by-year summary pairs 300 with "2020" and
300 with "2021". -/
theorem c9_scenario :
    runOk wb9 = true ∧
    (outputsOf wb9).combined.rows.length = 3 ∧
    (outputsOf wb9).per_year = [(Val.str "2020", 300), (Val.str "2021", 300)] := by
  decide

/-! ### Claim C4 -/

/-- Claim C4 counterexample: the sheet name "Year Year 2020" is
selected by the Loader, but its rows get the Year label "2020"
(`str.replace` removes every occurrence of "Year "), not the
prefix-stripped label "Year 2020" that the claim describes
(`specYearLabel`). -/
theorem c4_counterexample :
    isYearSheet ⟨"Year Year 2020", ["Trade volume"], []⟩ = true ∧
    yearLabel "Year Year 2020" = "2020" ∧
    specYearLabel "Year Year 2020" = "Year 2020" ∧
    getCell ((tableOf wb4).rows.headI) "Year" = Val.str "2020" ∧
    Val.str "2020" ≠ Val.str (specYearLabel "Year Year 2020") := by
  decide

/-- Claim C4 amended: the Loader selects exactly the sheets whose name
starts with "year" case-insensitively, and the Year label attached to a
sheet's rows is the sheet name with every occurrence of the substring
"Year " removed and surrounding whitespace trimmed (`yearLabel`). -/
theorem c4_amended (wb : Workbook) (t : Table) (h : read_year_sheets wb = .ok t) :
    (∀ r ∈ t.rows, ∃ sh, sh ∈ wb ∧ isYearSheet sh = true ∧
        getCell r "Year" = Val.str (yearLabel sh.name)) ∧
    (∀ sh ∈ wb, isYearSheet sh = true →
        ∀ r0 ∈ sh.rows, tagYear (yearLabel sh.name) r0 ∈ t.rows) := by
  obtain ⟨-, rfl⟩ := read_year_sheets_ok_inv h
  constructor
  · intro r hr
    simp only [List.mem_flatten, List.mem_map] at hr
    obtain ⟨l, ⟨sh, hsh, rfl⟩, hrl⟩ := hr
    obtain ⟨r0, -, rfl⟩ := List.mem_map.1 hrl
    have hm := List.mem_filter.1 hsh
    exact ⟨sh, hm.1, hm.2, getCell_tagYear _ _⟩
  · intro sh hsh hy r0 hr0
    simp only [List.mem_flatten, List.mem_map]
    exact ⟨sh.rows.map (tagYear (yearLabel sh.name)),
      ⟨sh, List.mem_filter.2 ⟨hsh, hy⟩, rfl⟩, List.mem_map.2 ⟨r0, hr0, rfl⟩⟩

theorem c4_amended_witness :
    (∀ r ∈ (tableOf wbDemo).rows, ∃ sh, sh ∈ wbDemo ∧ isYearSheet sh = true ∧
        getCell r "Year" = Val.str (yearLabel sh.name)) ∧
    (∀ sh ∈ wbDemo, isYearSheet sh = true →
        ∀ r0 ∈ sh.rows, tagYear (yearLabel sh.name) r0 ∈ (tableOf wbDemo).rows) :=
  c4_amended wbDemo (tableOf wbDemo) rfl

/-! ### Claim C1 -/

/-- Claim C1 counterexample: the workbook `wbNoVol` is accepted by the
Loader (one matching sheet), yet the run aborts: the Normalizer's
unconditional access to the absent `Trade volume` column raises, so the
absence of the primary measure is not a silent skip. -/
theorem c1_counterexample :
    loaderOk wbNoVol = true ∧ main wbNoVol = .error keyErrorMsg :=
  ⟨by decide, rfl⟩

theorem isSome_if {c : Prop} [Decidable c] (x : α) :
    (if c then some x else none).isSome = true ↔ c := by
  split_ifs with h <;> simp [h]

theorem mem_tons_cols (t1 : Table) (c : String) (hne : c ≠ "Trade volume (t)") :
    (c ∈ (dropnaVol (addTonsCol t1)).cols) ↔ c ∈ t1.cols := by
  simp [dropnaVol, addTonsCol, List.mem_append, hne]

/-- Claim C1 amended: provided the loaded table has a `Trade volume`
column, the run succeeds and each of the optional report sections is
produced exactly when its required column(s) exist; without the primary
measure the run aborts with a `KeyError` (see the counterexample). -/
theorem c1_amended (wb : Workbook) (t : Table) (h : read_year_sheets wb = .ok t)
    (hv : "Trade volume" ∈ t.cols) :
    ∃ o, main wb = .ok o ∧
      (o.by_country.isSome = true ↔ "Country of destination" ∈ t.cols) ∧
      (o.by_exporter.isSome = true ↔ "Exporter" ∈ t.cols) ∧
      (o.top3_imp.isSome = true ↔ "Importer" ∈ t.cols) ∧
      (o.top3_countries.isSome = true ↔ "Country of destination" ∈ t.cols) ∧
      (o.beans.isSome = true ↔ "Coffee bean" ∈ t.cols) ∧
      (o.top1_bean_year.isSome = true ↔ "Coffee bean" ∈ t.cols) ∧
      (o.muni.isSome = true ↔ "Municipality of export" ∈ t.cols) ∧
      (o.muni_exp.isSome = true ↔
        ("Municipality of export" ∈ t.cols ∧ "Exporter" ∈ t.cols)) := by
  refine ⟨buildOutputs (coerce_numeric t numColumns), main_ok_of h hv, ?_⟩
  have hmem : ∀ c : String, c ≠ "Trade volume (t)" →
      ((c ∈ (dropnaVol (addTonsCol (coerce_numeric t numColumns))).cols) ↔ c ∈ t.cols) := by
    intro c hc
    rw [mem_tons_cols _ _ hc, coerce_cols]
  simp only [buildOutputs, isSome_if]
  exact ⟨hmem _ (by decide), hmem _ (by decide), hmem _ (by decide), hmem _ (by decide),
    hmem _ (by decide), hmem _ (by decide), hmem _ (by decide),
    and_congr (hmem _ (by decide)) (hmem _ (by decide))⟩

theorem c1_amended_witness :
    ∃ o, main wbDemo = .ok o ∧
      (o.by_country.isSome = true ↔ "Country of destination" ∈ (tableOf wbDemo).cols) ∧
      (o.by_exporter.isSome = true ↔ "Exporter" ∈ (tableOf wbDemo).cols) ∧
      (o.top3_imp.isSome = true ↔ "Importer" ∈ (tableOf wbDemo).cols) ∧
      (o.top3_countries.isSome = true ↔ "Country of destination" ∈ (tableOf wbDemo).cols) ∧
      (o.beans.isSome = true ↔ "Coffee bean" ∈ (tableOf wbDemo).cols) ∧
      (o.top1_bean_year.isSome = true ↔ "Coffee bean" ∈ (tableOf wbDemo).cols) ∧
      (o.muni.isSome = true ↔ "Municipality of export" ∈ (tableOf wbDemo).cols) ∧
      (o.muni_exp.isSome = true ↔
        ("Municipality of export" ∈ (tableOf wbDemo).cols ∧ "Exporter" ∈ (tableOf wbDemo).cols)) :=
  c1_amended wbDemo (tableOf wbDemo) rfl (by decide)

/-! ### Claim C2 -/

theorem reportVol_sorted (rows : List Row) (key : String) :
    (reportVol rows key).Pairwise (fun a b => b.2 ≤ a.2) :=
  (sortByB_pairwise geVolB geVolB_total geVolB_trans _).imp
    (fun hab => by simpa [geVolB] using hab)

theorem reportPct_sorted (rows : List Row) (key : String) :
    (reportPct rows key).Pairwise (fun a b => b.2.1 ≤ a.2.1) := by
  rw [reportPct]
  exact (reportVol_sorted rows key).map _ (fun a b hab => hab)

theorem sortedYearKey_sorted (rows : List Row) (k2 : String) :
    (sortedYearKey rows k2).Pairwise (fun a b => leLexB a b = true) :=
  sortByB_pairwise leLexB leLexB_total leLexB_trans _

theorem topNPerYear_sorted (rows : List Row) (k2 : String) (N : ℕ) :
    (topNPerYear rows k2 N).Pairwise (fun a b => leLexB a b = true) :=
  List.Pairwise.sublist (headPerGroup_sublist N _ _) (sortedYearKey_sorted rows k2)

theorem muniExpReport_sorted (rows : List Row) :
    (muniExpReport rows).Pairwise (fun a b => leLexB a b = true) := by
  rw [muniExpReport]
  exact (sortByB_pairwise leLexB leLexB_total leLexB_trans _).filter _

theorem opt_all {c : Prop} [Decidable c] {x : α} {P : α → Prop} (hx : P x) :
    ∀ l, (if c then some x else none) = some l → P l := by
  intro l hl
  by_cases hc : c
  · rw [if_pos hc] at hl
    exact (Option.some.inj hl) ▸ hx
  · rw [if_neg hc] at hl
    exact absurd hl (by simp)

/-- Claim C2 counterexample: report A (the by-year table) is sorted by
the Year label ascending, not by the summed measure descending; on
`wbC2` its measure column reads [10, 20], which is increasing. -/
theorem c2_counterexample :
    ((outputsOf wbC2).per_year.map (fun p => p.2)) = [10, 20] ∧
    ¬ ((outputsOf wbC2).per_year.map (fun p => p.2)).Pairwise (fun a b => b ≤ a) := by
  constructor
  · decide
  · decide

/-- Claim C2 amended: after grouping and summing, report A is ordered
by Year ascending; the cumulative reports (destination, exporter, bean,
municipality) are ordered by the summed measure descending; the
per-year and per-municipality reports are ordered by their partition
key ascending and, within it, by the summed measure descending
(`leLexB`). -/
theorem c2_amended (wb : Workbook) (o : Outputs) (h : main wb = .ok o) :
    o.per_year.Pairwise (fun a b => valLeB a.1 b.1 = true) ∧
    (∀ l, o.by_country = some l → l.Pairwise (fun a b => b.2.1 ≤ a.2.1)) ∧
    (∀ l, o.by_exporter = some l → l.Pairwise (fun a b => b.2.1 ≤ a.2.1)) ∧
    (∀ l, o.beans = some l → l.Pairwise (fun a b => b.2.1 ≤ a.2.1)) ∧
    (∀ l, o.muni = some l → l.Pairwise (fun a b => b.2 ≤ a.2)) ∧
    (∀ l, o.top3_imp = some l → l.Pairwise (fun a b => leLexB a b = true)) ∧
    (∀ l, o.top3_countries = some l → l.Pairwise (fun a b => leLexB a b = true)) ∧
    (∀ l, o.top1_bean_year = some l → l.Pairwise (fun a b => leLexB a b = true)) ∧
    (∀ l, o.muni_exp = some l → l.Pairwise (fun a b => leLexB a b = true)) := by
  obtain ⟨t, -, -, rfl⟩ := main_ok_inv h
  simp only [buildOutputs]
  refine ⟨sortByB_pairwise leYearB leYearB_total leYearB_trans _,
    opt_all (reportPct_sorted _ _), opt_all (reportPct_sorted _ _),
    opt_all (reportPct_sorted _ _), opt_all (reportVol_sorted _ _),
    opt_all (topNPerYear_sorted _ _ _), opt_all (topNPerYear_sorted _ _ _),
    opt_all (topNPerYear_sorted _ _ _), opt_all (muniExpReport_sorted _)⟩

theorem c2_amended_witness :
    (outputsOf wbDemo).per_year.Pairwise (fun a b => valLeB a.1 b.1 = true) ∧
    (∀ l, (outputsOf wbDemo).by_country = some l → l.Pairwise (fun a b => b.2.1 ≤ a.2.1)) ∧
    (∀ l, (outputsOf wbDemo).by_exporter = some l → l.Pairwise (fun a b => b.2.1 ≤ a.2.1)) ∧
    (∀ l, (outputsOf wbDemo).beans = some l → l.Pairwise (fun a b => b.2.1 ≤ a.2.1)) ∧
    (∀ l, (outputsOf wbDemo).muni = some l → l.Pairwise (fun a b => b.2 ≤ a.2)) ∧
    (∀ l, (outputsOf wbDemo).top3_imp = some l → l.Pairwise (fun a b => leLexB a b = true)) ∧
    (∀ l, (outputsOf wbDemo).top3_countries = some l →
        l.Pairwise (fun a b => leLexB a b = true)) ∧
    (∀ l, (outputsOf wbDemo).top1_bean_year = some l →
        l.Pairwise (fun a b => leLexB a b = true)) ∧
    (∀ l, (outputsOf wbDemo).muni_exp = some l → l.Pairwise (fun a b => leLexB a b = true)) :=
  c2_amended wbDemo (outputsOf wbDemo) rfl

/-! ### Claim C7 -/

/-- Within-partition shape of a top-N-per-Year table: at most `N` rows
per distinct Year value, and the summed volume non-increasing inside
each Year partition. -/
def TopPerYear (N : ℕ) (l : List (Val × Val × ℚ)) : Prop :=
  (∀ y : Val, l.countP (fun x => x.1 == y) ≤ N) ∧
    l.Pairwise (fun a b => a.1 = b.1 → b.2.2 ≤ a.2.2)

def TopOk (N : ℕ) : Option (List (Val × Val × ℚ)) → Prop
  | none => True
  | some l => TopPerYear N l

theorem topNPerYear_ok (rows : List Row) (k2 : String) (N : ℕ) :
    TopPerYear N (topNPerYear rows k2 N) := by
  constructor
  · intro y
    exact headPerGroup_countP N _ y _
  · exact (topNPerYear_sorted rows k2 N).imp (fun hab hy => leLexB_same_fst hab hy)

/-- Claim C7: every top-N-per-Year table (top-3 importers, top-3
destination countries, top-1 coffee bean) has at most N rows per
distinct Year, and within each Year partition the summed volume is
non-increasing. -/
theorem c7_top_tables (wb : Workbook) (o : Outputs) (h : main wb = .ok o) :
    TopOk 3 o.top3_imp ∧ TopOk 3 o.top3_countries ∧ TopOk 1 o.top1_bean_year := by
  obtain ⟨t, -, -, rfl⟩ := main_ok_inv h
  simp only [buildOutputs]
  refine ⟨?_, ?_, ?_⟩ <;> split_ifs <;> simp [TopOk, topNPerYear_ok]

theorem c7_top_tables_witness :
    TopOk 3 (outputsOf wbDemo).top3_imp ∧ TopOk 3 (outputsOf wbDemo).top3_countries ∧
      TopOk 1 (outputsOf wbDemo).top1_bean_year :=
  c7_top_tables wbDemo (outputsOf wbDemo) rfl

/-! ### Claim C3 -/

theorem mem_combined_rows {t1 : Table} {r : Row} :
    r ∈ (dropnaVol (addTonsCol t1)).rows ↔
      (∃ r1, r1 ∈ t1.rows ∧
          setCell r1 "Trade volume (t)" (div1000 (getCell r1 "Trade volume")) = r) ∧
        isNum (getCell r "Trade volume") = true := by
  simp [dropnaVol, addTonsCol, List.mem_filter, List.mem_map]

theorem perYearReport_perm (rows : List Row) :
    List.Perm (perYearReport rows) (groupbySum rows "Year" "Trade volume") :=
  sortByB_perm _ _

theorem combined_year_str (wb : Workbook) (t : Table) (h : read_year_sheets wb = .ok t) :
    ∀ r ∈ (dropnaVol (addTonsCol (coerce_numeric t numColumns))).rows,
      ∃ lbl, getCell r "Year" = Val.str lbl := by
  intro r hr
  obtain ⟨⟨r1, hr1, rfl⟩, -⟩ := mem_combined_rows.1 hr
  simp only [coerce_numeric, List.mem_map] at hr1
  obtain ⟨r0, hr0, rfl⟩ := hr1
  obtain ⟨-, rfl⟩ := read_year_sheets_ok_inv h
  simp only [List.mem_flatten, List.mem_map] at hr0
  obtain ⟨l, ⟨sh, hsh, rfl⟩, hrl⟩ := hr0
  obtain ⟨r00, -, rfl⟩ := List.mem_map.1 hrl
  refine ⟨yearLabel sh.name, ?_⟩
  rw [getCell_setCell_diff _ _ _ _ (by decide),
      getCell_coerceFold _ numColumns "Year" _ (by decide), getCell_tagYear]

/-- Claim C3: after the Normalizer, every retained row has a numeric
`Trade volume`, its `Trade volume (t)` equals that volume divided by
1000, the retained rows are exactly the rows whose volume coerced to a
number (so missing or unparseable volumes are dropped), and the
aggregate per-year totals sum only over the retained rows. -/
theorem c3_normalizer (wb : Workbook) (o : Outputs) (h : main wb = .ok o) :
    (∀ r ∈ o.combined.rows, ∃ q : ℚ,
        getCell r "Trade volume" = Val.num q ∧
        getCell r "Trade volume (t)" = Val.num (q / 1000)) ∧
    (∃ t, read_year_sheets wb = .ok t ∧
        o.combined.rows
          = (addTonsCol (coerce_numeric t numColumns)).rows.filter
              (fun r => isNum (getCell r "Trade volume"))) ∧
    (o.per_year.map (fun p => p.2)).sum
        = (o.combined.rows.map (measureOf "Trade volume")).sum := by
  obtain ⟨t, hrd, hv, rfl⟩ := main_ok_inv h
  refine ⟨?_, ⟨t, hrd, rfl⟩, ?_⟩
  · intro r hr
    obtain ⟨⟨r1, hr1, rfl⟩, hnum⟩ := mem_combined_rows.1 hr
    rw [getCell_setCell_diff _ _ _ _ (by decide)] at hnum
    cases hval : getCell r1 "Trade volume" with
    | na => rw [hval] at hnum; exact absurd hnum (by simp [isNum])
    | str s => rw [hval] at hnum; exact absurd hnum (by simp [isNum])
    | num q =>
      refine ⟨q, ?_, ?_⟩
      · rw [getCell_setCell_diff _ _ _ _ (by decide), hval]
      · rw [getCell_setCell_same]
        simp [div1000, qdiv_eq]
  · have hyear := combined_year_str wb t hrd
    have hfilter :
        (dropnaVol (addTonsCol (coerce_numeric t numColumns))).rows.filter
            (fun r => !isNa (getCell r "Year"))
          = (dropnaVol (addTonsCol (coerce_numeric t numColumns))).rows := by
      rw [List.filter_eq_self]
      intro r hr
      obtain ⟨lbl, hl⟩ := hyear r hr
      simp [hl, isNa]
    show ((perYearReport (dropnaVol (addTonsCol (coerce_numeric t numColumns))).rows).map
        (fun p => p.2)).sum = _
    rw [((perYearReport_perm _).map (fun p : Val × ℚ => p.2)).sum_eq, groupbySum_total, hfilter]
    rfl

theorem c3_normalizer_witness :
    (∀ r ∈ (outputsOf wbDemo).combined.rows, ∃ q : ℚ,
        getCell r "Trade volume" = Val.num q ∧
        getCell r "Trade volume (t)" = Val.num (q / 1000)) ∧
    (∃ t, read_year_sheets wbDemo = .ok t ∧
        (outputsOf wbDemo).combined.rows
          = (addTonsCol (coerce_numeric t numColumns)).rows.filter
              (fun r => isNum (getCell r "Trade volume"))) ∧
    ((outputsOf wbDemo).per_year.map (fun p => p.2)).sum
        = ((outputsOf wbDemo).combined.rows.map (measureOf "Trade volume")).sum :=
  c3_normalizer wbDemo (outputsOf wbDemo) rfl

/-! ### Claim C6 -/

theorem reportPct_claim (rows : List Row) (key : String)
    (hT : ((reportPct rows key).map (fun p => p.2.1)).sum ≠ 0) :
    ((reportPct rows key).map (fun p => p.2.2)).sum = 100 ∧
      ∀ p ∈ reportPct rows key,
        p.2.2 = p.2.1 / ((reportPct rows key).map (fun x => x.2.1)).sum * 100 := by
  have hproj := reportPct_vol_proj rows key
  have hT2 : ((reportVol rows key).map (fun x => x.2)).sum ≠ 0 := by
    rw [← hproj]
    exact hT
  refine ⟨reportPct_sum_100 rows key hT2, ?_⟩
  intro p hp
  rw [hproj]
  exact reportPct_entries rows key p hp

/-- Claim C6 counterexample: on `wbC6` the destination column exists
but every destination cell is missing, so the destination report is an
empty table and its percentage column sums to 0, not 100. -/
theorem c6_counterexample :
    (outputsOf wbC6).by_country = some [] ∧
    ((((outputsOf wbC6).by_country.getD []).map (fun p => p.2.2)).sum = 0) ∧
    ((((outputsOf wbC6).by_country.getD []).map (fun p => p.2.2)).sum ≠ 100) := by
  refine ⟨by decide, ?_, ?_⟩
  · rw [← qsum_eq]
    decide
  · rw [← qsum_eq]
    decide

theorem some_if_inv {c : Prop} [Decidable c] {x l : α}
    (h : (if c then some x else none) = some l) : l = x := by
  by_cases hc : c
  · rw [if_pos hc] at h
    exact (Option.some.inj h).symm
  · rw [if_neg hc] at h
    exact absurd h (by simp)

/-- Claim C6 amended: for each percentage-carrying table (destination,
exporter, bean), whenever the grand total of its volume column is
nonzero, each percentage equals the group volume divided by the grand
total times 100, and the percentage column sums to exactly 100. -/
theorem c6_amended (wb : Workbook) (o : Outputs) (h : main wb = .ok o)
    (l : List (Val × ℚ × ℚ))
    (hl : o.by_country = some l ∨ o.by_exporter = some l ∨ o.beans = some l)
    (hT : (l.map (fun p => p.2.1)).sum ≠ 0) :
    (l.map (fun p => p.2.2)).sum = 100 ∧
      ∀ p ∈ l, p.2.2 = p.2.1 / (l.map (fun x => x.2.1)).sum * 100 := by
  obtain ⟨t, -, -, rfl⟩ := main_ok_inv h
  simp only [buildOutputs] at hl
  have hrep : ∃ key,
      l = reportPct (dropnaVol (addTonsCol (coerce_numeric t numColumns))).rows key := by
    rcases hl with hl | hl | hl
    · exact ⟨_, some_if_inv hl⟩
    · exact ⟨_, some_if_inv hl⟩
    · exact ⟨_, some_if_inv hl⟩
  obtain ⟨key, rfl⟩ := hrep
  exact reportPct_claim _ key hT

theorem c6_amended_witness :
    (((outputsOf wbDemo).by_country.getD []).map (fun p => p.2.2)).sum = 100 ∧
      ∀ p ∈ (outputsOf wbDemo).by_country.getD [],
        p.2.2 = p.2.1 / (((outputsOf wbDemo).by_country.getD []).map (fun x => x.2.1)).sum * 100 :=
  c6_amended wbDemo (outputsOf wbDemo) rfl ((outputsOf wbDemo).by_country.getD [])
    (Or.inl (by decide))
    (by rw [← qsum_eq]; decide)

/-! ### Claim C10 -/

theorem reportPct_keys (rows : List Row) (key : String) :
    ∀ p ∈ reportPct rows key, p.1 ≠ Val.na := by
  intro p hp
  rw [reportPct] at hp
  simp only [List.mem_map] at hp
  obtain ⟨q, hq, rfl⟩ := hp
  have hq2 := ((reportVol_perm rows key).mem_iff).1 hq
  rw [groupbySum] at hq2
  obtain ⟨k, hk, rfl⟩ := List.mem_map.1 hq2
  exact fun he => na_not_mem_groupKeys rows key (he ▸ hk)

/-- Claim C10: rows whose grouping-key is missing are excluded from the
report's groups and from its percentage denominator, which therefore
equals the volume sum over only the rows with a present key value; on
`wb10` this denominator is 100 for the destination report while the
exporter report's and the combined table's totals are both 150. -/
theorem c10_missing_keys :
    (∀ (rows : List Row) (key : String),
        (∀ p ∈ reportPct rows key, p.1 ≠ Val.na) ∧
        ((reportPct rows key).map (fun p => p.2.1)).sum
          = ((rows.filter (fun r => !isNa (getCell r key))).map (measureOf "Trade volume")).sum) ∧
    ((reportPct (outputsOf wb10).combined.rows "Country of destination").map
        (fun p => p.2.1)).sum = 100 ∧
    ((reportPct (outputsOf wb10).combined.rows "Exporter").map (fun p => p.2.1)).sum = 150 ∧
    ((outputsOf wb10).combined.rows.map (measureOf "Trade volume")).sum = 150 := by
  refine ⟨fun rows key => ⟨reportPct_keys rows key, ?_⟩, ?_, ?_, ?_⟩
  · rw [reportPct_vol_proj, reportVol_total]
  · rw [← qsum_eq]
    decide
  · rw [← qsum_eq]
    decide
  · rw [← qsum_eq]
    decide

end Coffee
